import Mathlib

/-!
Shallow embedding of `src/retreive_movies_data.py`, a checkpointed
multi-stage ingestion job (Discovery → Credits → Movies), and proofs of the
specification's claims about it.

Modelling conventions:
* JSON documents in the two detail stores matter only through their `"id"`
  field; a document is modelled by `Doc`, whose `id?` field is the value of
  the `"id"` key when present (`retreive_movies` / `retreive_movies_crew`
  return `{}` on failure, i.e. `id? = none`).
* The three fetch wrappers (`retreive_movies_id`, `retreive_movies`,
  `retreive_movies_crew`) swallow transport failures internally and return
  `[]` / `{}`; the external API together with those wrappers is modelled as
  oracle functions in `Env` (the failure case is the oracle returning
  `[]` / the empty document).
* Files on disk are `Option`-valued (`none` = file absent, so `read_data`
  returns the caller's default); `save_data` is a full overwrite, modelled
  by returning the document that is persisted.
* Python exceptions are `PyErr`; a stage returns `Except PyErr …` where
  `.error` means the exception propagates out of the stage without the
  trailing `save_data` running.  `main` catches exactly `ValueError`.
-/

namespace RetreiveMoviesData

/-- Equality of `Except` results is decidable when both components are. -/
instance {ε α : Type} [DecidableEq ε] [DecidableEq α] : DecidableEq (Except ε α)
  | .ok a, .ok b =>
    if h : a = b then .isTrue (by rw [h]) else .isFalse (by simp [h])
  | .error a, .error b =>
    if h : a = b then .isTrue (by rw [h]) else .isFalse (by simp [h])
  | .ok _, .error _ => .isFalse (by simp)
  | .error _, .ok _ => .isFalse (by simp)

/-- Python exceptions that the program can raise. -/
inductive PyErr where
  | valueError
  | keyError
  | typeError
deriving DecidableEq, Repr

/-- A JSON document as far as the program observes it: only its `"id"` key
matters (`id? = none` models a document without an `"id"` key, in
particular the empty document `{}` returned by a failed fetch). -/
structure Doc where
  id? : Option Int
deriving DecidableEq, Repr

/-- The empty document `{}` returned by `retreive_movies` /
`retreive_movies_crew` when the request fails. -/
def emptyDoc : Doc := ⟨none⟩

/-- The checkpoint document stored in `movies_ids.json`. -/
structure Checkpoint where
  page : Int
  pages_per_run : Int
  max_pages : Int
  data : List Int
deriving DecidableEq, Repr

/-- The default checkpoint used by `save_movies_ids` when
`movies_ids.json` does not exist yet. -/
def defaultCheckpoint : Checkpoint :=
  { page := 1, pages_per_run := 10, max_pages := 500, data := [] }

/-- `list(range(a, b))` on Python integers. -/
def intRange (a b : Int) : List Int :=
  (List.range (b - a).toNat).map fun i => a + (i : Int)

/-- The environment a run executes against: the credential source and the
three fetch wrappers (already including their internal failure handling:
`list_page` returns `[]` on failure, the two document fetches return the
empty document), plus the iteration order Python's `set` happens to use
when `main` builds `movies_ids`. -/
structure Env where
  token : Option String
  list_page : Int → List Int
  get_detail : Int → Doc
  get_related_set : Int → Doc
  enumerate : List Int → List Int

/-- Result of one `save_movies_ids` (Discovery) invocation:
which pages were fetched via `retreive_movies_id`, and either the
checkpoint that was persisted or the exception that was raised. -/
structure DiscoveryResult where
  pagesFetched : List Int
  outcome : Except PyErr Checkpoint
deriving DecidableEq, Repr

/-- `save_movies_ids`: load the checkpoint (default if absent), build
`pages = list(range(page, page + pages_per_run))`, raise `ValueError` if
`page >= max_pages`, otherwise fetch every page in order, extending
`data`, then advance `page` by `pages_per_run` and persist. -/
def save_movies_ids (env : Env) (file : Option Checkpoint) : DiscoveryResult :=
  let data_to_save := file.getD defaultCheckpoint
  let pages : List Int :=
    intRange data_to_save.page (data_to_save.page + data_to_save.pages_per_run)
  if data_to_save.page ≥ data_to_save.max_pages then
    { pagesFetched := [], outcome := .error .valueError }
  else
    let newData := pages.foldl (fun d p => d ++ env.list_page p) data_to_save.data
    { pagesFetched := pages
      outcome := .ok { data_to_save with
                        page := data_to_save.page + data_to_save.pages_per_run
                        data := newData } }

/-- `[m["id"] for m in docs]`: the list of `"id"` fields, raising
`KeyError` at the first document that lacks the key. -/
def idsOf : List Doc → Except PyErr (List Int)
  | [] => .ok []
  | d :: ds =>
    match d.id? with
    | none => .error .keyError
    | some i =>
      match idsOf ds with
      | .error e => .error e
      | .ok rest => .ok (i :: rest)

/-- Result of one detail-stage invocation (`save_movies` or
`save_credits_data`): the ids for which the fetch wrapper was invoked, in
order, and either the store that was persisted or the exception raised. -/
structure StageResult where
  fetched : List Int
  outcome : Except PyErr (List Doc)
deriving DecidableEq, Repr

/-- The `for movie_id in movies_ids` loop of `save_movies`: skip ids in
`movies_ids_already_saved`, otherwise fetch and append the result
(empty or not) to the in-memory list. -/
def moviesLoop (env : Env) (already : List Int) :
    List Int → List Int → List Doc → List Int × List Doc
  | [], fetched, movies => (fetched, movies)
  | movie_id :: rest, fetched, movies =>
    if movie_id ∈ already then
      moviesLoop env already rest fetched movies
    else
      moviesLoop env already rest (fetched ++ [movie_id])
        (movies ++ [env.get_detail movie_id])

/-- `save_movies`: load `movies.json` (default `[]`), compute
`movies_ids_already_saved = [m["id"] for m in movies]` (this raises
`KeyError` if a stored record lacks `"id"`), run the loop, persist. -/
def save_movies (env : Env) (movies_ids : List Int) (file : Option (List Doc)) :
    StageResult :=
  let movies := file.getD []
  match idsOf movies with
  | .error e => { fetched := [], outcome := .error e }
  | .ok movies_ids_already_saved =>
    let r := moviesLoop env movies_ids_already_saved movies_ids [] movies
    { fetched := r.1, outcome := .ok r.2 }

/-- The `for movie_id in movies_ids` loop of `save_credits_data`: skip ids
in `credits_already_saved`, otherwise fetch; the log line
`print(f"Reading credit: {credit["id"]}")` runs before the append and
raises `KeyError` when the fetched document lacks `"id"` (the failed-fetch
empty document), aborting the stage. -/
def creditsLoop (env : Env) (already : List Int) :
    List Int → List Int → List Doc → StageResult
  | [], fetched, credits => { fetched := fetched, outcome := .ok credits }
  | movie_id :: rest, fetched, credits =>
    if movie_id ∈ already then
      creditsLoop env already rest fetched credits
    else
      let credit := env.get_related_set movie_id
      match credit.id? with
      | none => { fetched := fetched ++ [movie_id], outcome := .error .keyError }
      | some _ =>
        creditsLoop env already rest (fetched ++ [movie_id]) (credits ++ [credit])

/-- `save_credits_data`: load `credits.json` (default `[]`), compute
`credits_already_saved = [c["id"] for c in credits]`, run the loop,
persist on completion. -/
def save_credits_data (env : Env) (movies_ids : List Int)
    (file : Option (List Doc)) : StageResult :=
  let credits := file.getD []
  match idsOf credits with
  | .error e => { fetched := [], outcome := .error e }
  | .ok credits_already_saved =>
    creditsLoop env credits_already_saved movies_ids [] credits

/-- The three persisted JSON files (`none` = file does not exist yet). -/
structure FileState where
  movies_ids_file : Option Checkpoint
  credits_file : Option (List Doc)
  movies_file : Option (List Doc)
deriving DecidableEq, Repr

/-- Observable outcome of one `main()` cycle: the resulting file state,
the exception escaping `main` (if any — it crashes the process), whether a
`ValueError` was caught and printed, and the per-stage fetch traces. -/
structure MainResult where
  state : FileState
  escaped : Option PyErr
  caught : Bool
  pagesFetched : List Int
  creditsFetched : List Int
  detailsFetched : List Int
deriving DecidableEq, Repr

/-- `main()`: read the token (raising `ValueError` when absent), run
Discovery, re-read `movies_ids.json` and build the unique-id set, run the
credits then the movies detail stage; `except ValueError` catches exactly
`ValueError` and prints it. -/
def main (env : Env) (st : FileState) : MainResult :=
  match env.token with
  | none =>
    { state := st, escaped := none, caught := true
      pagesFetched := [], creditsFetched := [], detailsFetched := [] }
  | some _ =>
    let disco := save_movies_ids env st.movies_ids_file
    match disco.outcome with
    | .error e =>
      if e = .valueError then
        { state := st, escaped := none, caught := true
          pagesFetched := disco.pagesFetched
          creditsFetched := [], detailsFetched := [] }
      else
        { state := st, escaped := some e, caught := false
          pagesFetched := disco.pagesFetched
          creditsFetched := [], detailsFetched := [] }
    | .ok cp =>
      let st1 : FileState := { st with movies_ids_file := some cp }
      match st1.movies_ids_file with
      | none =>
        -- `read_data(..., [{"data": []}])["data"]` on the default list
        -- raises TypeError; unreachable, since Discovery just saved.
        { state := st1, escaped := some .typeError, caught := false
          pagesFetched := disco.pagesFetched
          creditsFetched := [], detailsFetched := [] }
      | some cp' =>
        let movies_ids := env.enumerate cp'.data
        let cr := save_credits_data env movies_ids st1.credits_file
        match cr.outcome with
        | .error e =>
          if e = .valueError then
            { state := st1, escaped := none, caught := true
              pagesFetched := disco.pagesFetched
              creditsFetched := cr.fetched, detailsFetched := [] }
          else
            { state := st1, escaped := some e, caught := false
              pagesFetched := disco.pagesFetched
              creditsFetched := cr.fetched, detailsFetched := [] }
        | .ok creditsStore =>
          let st2 : FileState := { st1 with credits_file := some creditsStore }
          let mv := save_movies env movies_ids st2.movies_file
          match mv.outcome with
          | .error e =>
            if e = .valueError then
              { state := st2, escaped := none, caught := true
                pagesFetched := disco.pagesFetched
                creditsFetched := cr.fetched, detailsFetched := mv.fetched }
            else
              { state := st2, escaped := some e, caught := false
                pagesFetched := disco.pagesFetched
                creditsFetched := cr.fetched, detailsFetched := mv.fetched }
          | .ok moviesStore =>
            { state := { st2 with movies_file := some moviesStore }
              escaped := none, caught := false
              pagesFetched := disco.pagesFetched
              creditsFetched := cr.fetched, detailsFetched := mv.fetched }

/-- The `__main__` loop: run `main` up to `n` times with a pause between
cycles; an exception escaping `main` crashes the process, ending the loop
early.  Returns the final file state, the per-cycle results, and whether
the process crashed. -/
def runCycles (env : Env) : Nat → FileState → FileState × List MainResult × Bool
  | 0, st => (st, [], false)
  | n + 1, st =>
    let r := main env st
    match r.escaped with
    | some _ => (r.state, [r], true)
    | none =>
      let rest := runCycles env n r.state
      (rest.1, r :: rest.2.1, rest.2.2)

/-- The Dedup Ledger: `set(data)` as used by `main` on the checkpoint's
`data` list. -/
def dedupLedger (data : List Int) : Finset Int := data.toFinset

/-! ### Helper lemmas -/

/-- Folding `d ++ f p` over a page list only ever appends to the
accumulator. -/
theorem foldl_append_extends (f : Int → List Int) (l : List Int) :
    ∀ init : List Int, ∃ t, l.foldl (fun d p => d ++ f p) init = init ++ t := by
  induction l with
  | nil => intro init; exact ⟨[], by simp⟩
  | cons p rest ih =>
    intro init
    obtain ⟨t, ht⟩ := ih (init ++ f p)
    exact ⟨f p ++ t, by simp [ht]⟩

/-- If the id-comprehension succeeds, the id of every stored document is in
its result. -/
theorem idsOf_mem {store : List Doc} {already : List Int}
    (h : idsOf store = .ok already) {d : Doc} (hd : d ∈ store) {i : Int}
    (hi : d.id? = some i) : i ∈ already := by
  induction store generalizing already with
  | nil => cases hd
  | cons a rest ih =>
    rw [idsOf] at h
    rcases hj : a.id? with _ | j
    · rw [hj] at h; cases h
    · rw [hj] at h
      rcases hr : idsOf rest with e | l
      · rw [hr] at h; cases h
      · rw [hr] at h
        cases h
        rcases List.mem_cons.1 hd with hd | hd
        · subst hd; rw [hj] at hi; cases hi; exact List.mem_cons_self _ _
        · exact List.mem_cons_of_mem _ (ih hr hd)

/-- The id-comprehension succeeds when every stored document has an `"id"`
field. -/
theorem idsOf_ok_of_wf {store : List Doc}
    (h : ∀ d ∈ store, (Doc.id? d).isSome) : ∃ l, idsOf store = .ok l := by
  induction store with
  | nil => exact ⟨[], rfl⟩
  | cons a rest ih =>
    obtain ⟨l, hl⟩ := ih fun d hd => h d (List.mem_cons_of_mem _ hd)
    rcases hj : a.id? with _ | j
    · have := h a (List.mem_cons_self _ _)
      rw [hj] at this; cases this
    · exact ⟨j :: l, by rw [idsOf, hj, hl]⟩

/-- The id-comprehension raises `KeyError` only. -/
theorem idsOf_error {store : List Doc} {e : PyErr}
    (h : idsOf store = .error e) : e = .keyError := by
  induction store with
  | nil => cases h
  | cons a rest ih =>
    rw [idsOf] at h
    rcases hj : a.id? with _ | j
    · rw [hj] at h; cases h; rfl
    · rw [hj] at h
      rcases hr : idsOf rest with e' | l
      · rw [hr] at h; cases h; exact ih hr
      · rw [hr] at h; cases h

/-- The movies loop only appends to its accumulators: the run from
arbitrary accumulators is the run from empty accumulators prefixed by
them. -/
theorem moviesLoop_shift (env : Env) (already ids : List Int) :
    ∀ (f : List Int) (s : List Doc),
      moviesLoop env already ids f s =
        (f ++ (moviesLoop env already ids [] []).1,
         s ++ (moviesLoop env already ids [] []).2) := by
  induction ids with
  | nil => intro f s; simp [moviesLoop]
  | cons a rest ih =>
    intro f s
    by_cases ha : a ∈ already
    · simp only [moviesLoop, if_pos ha]
      exact ih f s
    · simp only [moviesLoop, if_neg ha, List.nil_append]
      rw [ih (f ++ [a]), ih [a]]
      simp

/-- Every document the movies loop appends is the fetch result of the
corresponding fetched id. -/
theorem moviesLoop_store (env : Env) (already ids : List Int) :
    (moviesLoop env already ids [] []).2 =
      ((moviesLoop env already ids [] []).1).map env.get_detail := by
  induction ids with
  | nil => simp [moviesLoop]
  | cons a rest ih =>
    by_cases ha : a ∈ already
    · simp only [moviesLoop, if_pos ha]; exact ih
    · simp only [moviesLoop, if_neg ha]
      rw [moviesLoop_shift]
      simp [ih]

/-- An id the movies loop fetched was either already in the accumulator or
is a candidate outside the already-saved list. -/
theorem moviesLoop_fetched_mem (env : Env) (already ids : List Int) :
    ∀ (f : List Int) (s : List Doc) (i : Int),
      i ∈ (moviesLoop env already ids f s).1 →
        i ∈ f ∨ (i ∈ ids ∧ i ∉ already) := by
  induction ids with
  | nil => intro f s i h; exact .inl h
  | cons a rest ih =>
    intro f s i h
    by_cases ha : a ∈ already
    · simp only [moviesLoop, if_pos ha] at h
      rcases ih f s i h with hf | ⟨hr, hn⟩
      · exact .inl hf
      · exact .inr ⟨List.mem_cons_of_mem _ hr, hn⟩
    · simp only [moviesLoop, if_neg ha] at h
      rcases ih (f ++ [a]) (s ++ [env.get_detail a]) i h with hf | ⟨hr, hn⟩
      · rcases List.mem_append.1 hf with hf | hf
        · exact .inl hf
        · have hia : i = a := List.mem_singleton.1 hf
          subst hia
          exact .inr ⟨List.mem_cons_self _ _, ha⟩
      · exact .inr ⟨List.mem_cons_of_mem _ hr, hn⟩

/-- The credits loop only appends to its accumulators; on success the
persisted list is the initial store followed by the appended documents,
and an exception does not depend on the accumulators. -/
theorem creditsLoop_shift (env : Env) (already ids : List Int) :
    ∀ (f : List Int) (s : List Doc),
      (creditsLoop env already ids f s).fetched =
        f ++ (creditsLoop env already ids [] []).fetched ∧
      (creditsLoop env already ids f s).outcome =
        match (creditsLoop env already ids [] []).outcome with
        | .ok t => .ok (s ++ t)
        | .error e => .error e := by
  induction ids with
  | nil => intro f s; simp [creditsLoop]
  | cons a rest ih =>
    intro f s
    by_cases ha : a ∈ already
    · simp only [creditsLoop, if_pos ha]
      exact ih f s
    · simp only [creditsLoop, if_neg ha, List.nil_append]
      rcases hj : (env.get_related_set a).id? with _ | j
      · simp
      · obtain ⟨hf1, ho1⟩ := ih (f ++ [a]) (s ++ [env.get_related_set a])
        obtain ⟨hf2, ho2⟩ := ih [a] [env.get_related_set a]
        refine ⟨by rw [hf1, hf2]; simp, ?_⟩
        rw [ho1, ho2]
        rcases (creditsLoop env already rest [] []).outcome with e | t <;> simp

/-- Every document the credits loop appends is the fetch result of the
corresponding fetched id. -/
theorem creditsLoop_ok_store (env : Env) (already ids : List Int) :
    ∀ {t : List Doc},
      (creditsLoop env already ids [] []).outcome = .ok t →
        t = ((creditsLoop env already ids [] []).fetched).map env.get_related_set := by
  induction ids with
  | nil => intro t ht; cases ht; simp [creditsLoop]
  | cons a rest ih =>
    intro t ht
    by_cases ha : a ∈ already
    · simp only [creditsLoop, if_pos ha] at ht ⊢
      exact ih ht
    · rcases hj : (env.get_related_set a).id? with _ | j
      · simp only [creditsLoop, if_neg ha, hj] at ht
        cases ht
      · simp only [creditsLoop, if_neg ha, hj, List.nil_append] at ht ⊢
        obtain ⟨hf, ho⟩ :=
          creditsLoop_shift env already rest [a] [env.get_related_set a]
        rw [ho] at ht
        rcases hb : (creditsLoop env already rest [] []).outcome with e | t'
        · rw [hb] at ht; cases ht
        · rw [hb] at ht
          cases ht
          rw [hf]
          simp [ih hb]

/-- If the credits loop completed (persisting its store), every candidate
outside the already-saved list had a fetch result carrying an `"id"`. -/
theorem creditsLoop_ok_all_some (env : Env) (already ids : List Int) :
    ∀ (f : List Int) (s : List Doc) {t : List Doc},
      (creditsLoop env already ids f s).outcome = .ok t →
        ∀ i ∈ ids, i ∉ already → ((env.get_related_set i).id?).isSome := by
  induction ids with
  | nil => intro f s t _ i hi; cases hi
  | cons a rest ih =>
    intro f s t ht i hi hni
    by_cases ha : a ∈ already
    · simp only [creditsLoop, if_pos ha] at ht
      rcases List.mem_cons.1 hi with hi | hi
      · exact absurd (hi ▸ ha) hni
      · exact ih f s ht i hi hni
    · simp only [creditsLoop, if_neg ha] at ht
      rcases hj : (env.get_related_set a).id? with _ | j
      · rw [hj] at ht; cases ht
      · rw [hj] at ht
        rcases List.mem_cons.1 hi with hi | hi
        · rw [hi, hj]; rfl
        · exact ih _ _ ht i hi hni

/-- The credits loop raises `KeyError` only. -/
theorem creditsLoop_error (env : Env) (already ids : List Int) :
    ∀ (f : List Int) (s : List Doc) {e : PyErr},
      (creditsLoop env already ids f s).outcome = .error e → e = .keyError := by
  induction ids with
  | nil => intro f s e h; cases h
  | cons a rest ih =>
    intro f s e h
    by_cases ha : a ∈ already
    · simp only [creditsLoop, if_pos ha] at h
      exact ih f s h
    · simp only [creditsLoop, if_neg ha] at h
      rcases hj : (env.get_related_set a).id? with _ | j
      · rw [hj] at h; cases h; rfl
      · rw [hj] at h
        exact ih _ _ h

/-- If every candidate outside the already-saved list fetches a document
with an `"id"`, the credits loop completes. -/
theorem creditsLoop_ok_of_all_some (env : Env) (already ids : List Int)
    (h : ∀ i ∈ ids, i ∉ already → ((env.get_related_set i).id?).isSome) :
    ∀ (f : List Int) (s : List Doc),
      ∃ t, (creditsLoop env already ids f s).outcome = .ok t := by
  induction ids with
  | nil => intro f s; exact ⟨s, rfl⟩
  | cons a rest ih =>
    intro f s
    have hrest : ∀ i ∈ rest, i ∉ already → ((env.get_related_set i).id?).isSome :=
      fun i hi => h i (List.mem_cons_of_mem _ hi)
    by_cases ha : a ∈ already
    · simp only [creditsLoop, if_pos ha]
      exact ih hrest f s
    · simp only [creditsLoop, if_neg ha]
      rcases hj : (env.get_related_set a).id? with _ | j
      · have := h a (List.mem_cons_self _ _) ha
        rw [hj] at this; cases this
      · exact ih hrest _ _

/-- A `Nodup` list whose element set is `{7, 8}` is one of the two
enumerations of that set. -/
theorem pair_enum {l : List Int} (hnd : l.Nodup)
    (hset : l.toFinset = ({7, 8} : Finset Int)) : l = [7, 8] ∨ l = [8, 7] := by
  have hlen : l.length = 2 := by
    rw [← List.toFinset_card_of_nodup hnd, hset]; decide
  obtain ⟨a, b, rfl⟩ := List.length_eq_two.1 hlen
  have hane : a ≠ b := by simpa using hnd
  have hab : ({a, b} : Finset Int) = {7, 8} := by
    simpa [List.toFinset_cons] using hset
  have ha : a = 7 ∨ a = 8 := by
    have : a ∈ ({7, 8} : Finset Int) := hab ▸ Finset.mem_insert_self a {b}
    simpa using this
  have hb : b = 7 ∨ b = 8 := by
    have : b ∈ ({7, 8} : Finset Int) :=
      hab ▸ Finset.mem_insert_of_mem (Finset.mem_singleton_self b)
    simpa using this
  rcases ha with ha | ha <;> rcases hb with hb | hb
  · exact absurd (ha.trans hb.symm) hane
  · exact .inl (by rw [ha, hb])
  · exact .inr (by rw [ha, hb])
  · exact absurd (ha.trans hb.symm) hane

/-- Discovery can only raise `ValueError` (the max-pages rejection). -/
theorem save_movies_ids_error {env : Env} {file : Option Checkpoint} {e : PyErr}
    (h : (save_movies_ids env file).outcome = .error e) : e = .valueError := by
  rw [save_movies_ids] at h
  by_cases hc :
      (file.getD defaultCheckpoint).page ≥ (file.getD defaultCheckpoint).max_pages
  · rw [if_pos hc] at h; cases h; rfl
  · rw [if_neg hc] at h; cases h

/-- The id-comprehension raises `KeyError` whenever some document lacks the
`"id"` key. -/
theorem idsOf_error_of_none {store : List Doc} {d : Doc}
    (hd : d ∈ store) (hn : d.id? = none) : idsOf store = .error .keyError := by
  induction store with
  | nil => cases hd
  | cons a rest ih =>
    rcases List.mem_cons.1 hd with hd | hd
    · subst hd
      rw [idsOf, hn]
    · rcases hj : a.id? with _ | j
      · rw [idsOf, hj]
      · rw [idsOf, hj, ih hd]

/-- Every candidate outside the already-saved list is fetched by the
movies loop. -/
theorem moviesLoop_fetched_complete (env : Env) (already ids : List Int)
    {i : Int} (hi : i ∈ ids) (hni : i ∉ already) :
    ∀ (f : List Int) (s : List Doc), i ∈ (moviesLoop env already ids f s).1 := by
  induction ids with
  | nil => cases hi
  | cons a rest ih =>
    intro f s
    by_cases ha : a ∈ already
    · simp only [moviesLoop, if_pos ha]
      rcases List.mem_cons.1 hi with hi | hi
      · exact absurd (hi ▸ ha) hni
      · exact ih hi f s
    · simp only [moviesLoop, if_neg ha]
      rcases List.mem_cons.1 hi with hi | hi
      · subst hi
        rw [moviesLoop_shift]
        exact List.mem_append_left _ (List.mem_append_right _ (List.mem_singleton_self i))
      · exact ih hi _ _

/-- A movies-loop run from an initial store: the fetched ids do not
depend on the store, and the resulting store is the initial one followed
by the fetch results, in fetch order. -/
theorem moviesLoop_run (env : Env) (already ids : List Int) (s : List Doc) :
    moviesLoop env already ids [] s =
      ((moviesLoop env already ids [] []).1,
       s ++ ((moviesLoop env already ids [] []).1).map env.get_detail) := by
  rw [moviesLoop_shift env already ids [] s, moviesLoop_store]
  simp

/-! ### The claims -/

/-- A fixed benign environment used to instantiate hypotheses of the
claim theorems at concrete inputs: the token is present, every listing
succeeds with no ids, and every detail fetch succeeds with a document
carrying the requested id. -/
def envW : Env where
  token := some "token"
  list_page := fun _ => []
  get_detail := fun i => ⟨some i⟩
  get_related_set := fun i => ⟨some i⟩
  enumerate := List.dedup

/-- The initial file state: none of the three JSON files exists yet. -/
def emptyFiles : FileState :=
  { movies_ids_file := none, credits_file := none, movies_file := none }

/-- C1: For every checkpoint with `page < max_pages`, one Discovery
invocation persists a checkpoint whose `page` field equals the loaded
page plus `pages_per_run`, regardless of how many ids (including zero)
each of the `pages_per_run` `list_page` calls returned. -/
theorem claim_C1 (env : Env) (file : Option Checkpoint)
    (h : (file.getD defaultCheckpoint).page <
      (file.getD defaultCheckpoint).max_pages) :
    ∃ cp, (save_movies_ids env file).outcome = .ok cp ∧
      cp.page = (file.getD defaultCheckpoint).page +
        (file.getD defaultCheckpoint).pages_per_run := by
  rw [save_movies_ids, if_neg (not_le.2 h)]
  exact ⟨_, rfl, rfl⟩

/-- Witness for C1 at a concrete input: the very first run (no checkpoint
file, so the default with `page = 1`, `pages_per_run = 10` is used). -/
theorem claim_C1_witness :
    ∃ cp, (save_movies_ids envW none).outcome = .ok cp ∧
      cp.page = (1 : Int) + 10 :=
  claim_C1 envW none (by decide)

/-- C2: For every checkpoint with `page ≥ max_pages`, invoking Discovery
performs no fetch, raises `ValueError`, and leaves the persisted
checkpoint unmodified — `main` catches the error having made no progress
at all. -/
theorem claim_C2 (env : Env) (st : FileState) (t : String) (cp : Checkpoint)
    (htok : env.token = some t)
    (hfile : st.movies_ids_file = some cp)
    (h : cp.page ≥ cp.max_pages) :
    save_movies_ids env st.movies_ids_file =
      { pagesFetched := [], outcome := .error .valueError } ∧
    main env st =
      { state := st, escaped := none, caught := true
        pagesFetched := [], creditsFetched := [], detailsFetched := [] } := by
  have hdisc : save_movies_ids env st.movies_ids_file =
      { pagesFetched := [], outcome := .error .valueError } := by
    rw [save_movies_ids, hfile]
    exact if_pos h
  refine ⟨hdisc, ?_⟩
  rw [main, htok, hdisc]
  rfl

/-- Witness for C2 at a concrete input: a checkpoint already at the
ceiling `page = max_pages = 500`. -/
theorem claim_C2_witness :
    save_movies_ids envW
        (FileState.movies_ids_file
          { emptyFiles with movies_ids_file := some ⟨500, 10, 500, [7]⟩ }) =
      { pagesFetched := [], outcome := .error .valueError } ∧
    main envW { emptyFiles with movies_ids_file := some ⟨500, 10, 500, [7]⟩ } =
      { state := { emptyFiles with movies_ids_file := some ⟨500, 10, 500, [7]⟩ }
        escaped := none, caught := true
        pagesFetched := [], creditsFetched := [], detailsFetched := [] } :=
  claim_C2 envW _ "token" ⟨500, 10, 500, [7]⟩ rfl rfl (by decide)

/-- Unfolding `save_movies` when the id-comprehension over the stored
records succeeds. -/
theorem save_movies_eq_ok {env : Env} {ids : List Int}
    {file : Option (List Doc)} {already : List Int}
    (hids : idsOf (file.getD []) = .ok already) :
    save_movies env ids file =
      { fetched := (moviesLoop env already ids [] (file.getD [])).1
        outcome := .ok (moviesLoop env already ids [] (file.getD [])).2 } := by
  simp only [save_movies]
  rw [hids]

/-- Unfolding `save_movies` when the id-comprehension raises. -/
theorem save_movies_eq_error {env : Env} {ids : List Int}
    {file : Option (List Doc)} {e : PyErr}
    (hids : idsOf (file.getD []) = .error e) :
    save_movies env ids file = { fetched := [], outcome := .error e } := by
  simp only [save_movies]
  rw [hids]

/-- Unfolding `save_credits_data` when the id-comprehension over the
stored records succeeds. -/
theorem save_credits_data_eq_ok {env : Env} {ids : List Int}
    {file : Option (List Doc)} {already : List Int}
    (hids : idsOf (file.getD []) = .ok already) :
    save_credits_data env ids file =
      creditsLoop env already ids [] (file.getD []) := by
  simp only [save_credits_data]
  rw [hids]

/-- Unfolding `save_credits_data` when the id-comprehension raises. -/
theorem save_credits_data_eq_error {env : Env} {ids : List Int}
    {file : Option (List Doc)} {e : PyErr}
    (hids : idsOf (file.getD []) = .error e) :
    save_credits_data env ids file = { fetched := [], outcome := .error e } := by
  simp only [save_credits_data]
  rw [hids]

/-- C3: For every id already present (as some stored record's `"id"`
value) in the movies store, the movies Detail Stage never fetches or
appends that id (all appended records are fetch results for the other,
fetched ids); in particular with the store `[{id: 7}]` and a unique-id
set `{7, 8}` (in either enumeration order), only id 8 is fetched and the
two-element store `[{id: 7}, fetch result of 8]` is persisted. -/
theorem claim_C3 :
    (∀ (env : Env) (ids : List Int) (file : Option (List Doc)) (i : Int),
       i ∈ ids → (∃ d ∈ file.getD [], d.id? = some i) →
         i ∉ (save_movies env ids file).fetched ∧
         ∀ store, (save_movies env ids file).outcome = .ok store →
           store = file.getD [] ++
             ((save_movies env ids file).fetched).map env.get_detail) ∧
    (∀ (env : Env) (ids : List Int), ids.Nodup →
       ids.toFinset = ({7, 8} : Finset Int) →
       save_movies env ids (some [⟨some 7⟩]) =
         { fetched := [8], outcome := .ok [⟨some 7⟩, env.get_detail 8] }) := by
  constructor
  · rintro env ids file i hi ⟨d, hd, hdi⟩
    rcases hids : idsOf (file.getD []) with e | already
    · rw [save_movies_eq_error hids]
      constructor
      · intro h
        cases h
      · intro store hst
        cases hst
    · have hmem : i ∈ already := idsOf_mem hids hd hdi
      rw [save_movies_eq_ok hids]
      constructor
      · intro hf
        rcases moviesLoop_fetched_mem env already ids [] (file.getD []) i hf
          with h0 | ⟨_, hn⟩
        · cases h0
        · exact hn hmem
      · intro store hst
        cases hst
        rw [moviesLoop_run]
  · exact fun env ids h1 h2 => by
      rcases pair_enum h1 h2 with rfl | rfl <;> rfl

/-- Witness for C3 at concrete inputs: id 8 already stored is not
re-fetched, and scenario B runs as described with enumeration `[7, 8]`. -/
theorem claim_C3_witness :
    ((8 : Int) ∉ (save_movies envW [8, 7] (some [⟨some 8⟩])).fetched) ∧
    save_movies envW [7, 8] (some [⟨some 7⟩]) =
      { fetched := [8], outcome := .ok [⟨some 7⟩, envW.get_detail 8] } :=
  ⟨(claim_C3.1 envW [8, 7] (some [⟨some 8⟩]) 8 (by decide)
      ⟨⟨some 8⟩, by decide, rfl⟩).1,
   claim_C3.2 envW [7, 8] (by decide) (by decide)⟩

/-- C4: When `get_detail` fails for a candidate id (returning the empty
document), the movies Detail Stage appends that empty document to the
store anyway, and a subsequent run of the stage over that store with the
same unique-id set does not re-fetch that id — in fact it raises
`KeyError` while reading the `"id"` fields of the stored records, before
performing any fetch at all. -/
theorem claim_C4 (env : Env) (ids : List Int) (file : Option (List Doc))
    (i : Int) (already : List Int)
    (hfail : env.get_detail i = emptyDoc)
    (hi : i ∈ ids)
    (hids : idsOf (file.getD []) = .ok already)
    (hnot : i ∉ already) :
    ∃ store, (save_movies env ids file).outcome = .ok store ∧
      i ∈ (save_movies env ids file).fetched ∧
      emptyDoc ∈ store ∧
      save_movies env ids (some store) =
        { fetched := [], outcome := .error .keyError } := by
  rw [save_movies_eq_ok hids]
  have hbase : i ∈ (moviesLoop env already ids [] []).1 :=
    moviesLoop_fetched_complete env already ids hi hnot [] []
  have hmem : emptyDoc ∈ (moviesLoop env already ids [] (file.getD [])).2 := by
    rw [moviesLoop_run]
    exact List.mem_append_right _ (List.mem_map.2 ⟨i, hbase, hfail⟩)
  refine ⟨_, rfl,
    moviesLoop_fetched_complete env already ids hi hnot [] (file.getD []),
    hmem, ?_⟩
  exact save_movies_eq_error (idsOf_error_of_none hmem rfl)

/-- The environment of the C4 witness: the detail fetch for id 8 fails
(returns the empty document), all others succeed. -/
def envC4 : Env :=
  { envW with get_detail := fun i => if i = 8 then emptyDoc else ⟨some i⟩ }

/-- Witness for C4 at a concrete input: empty movies store, unique-id set
`{7, 8}`, `get_detail(8)` failing. -/
theorem claim_C4_witness :
    ∃ store, (save_movies envC4 [7, 8] none).outcome = .ok store ∧
      (8 : Int) ∈ (save_movies envC4 [7, 8] none).fetched ∧
      emptyDoc ∈ store ∧
      save_movies envC4 [7, 8] (some store) =
        { fetched := [], outcome := .error .keyError } :=
  claim_C4 envC4 [7, 8] none 8 [] (by decide) (by decide) rfl (by decide)

/-- The environment of the C5 and C6 counterexamples: the token is
present, page 1 lists the single id 7 (other pages list nothing), detail
fetches succeed, but every credits fetch fails and returns the empty
document. -/
def envCex : Env where
  token := some "token"
  list_page := fun p => if p = 1 then [7] else []
  get_detail := fun i => ⟨some i⟩
  get_related_set := fun _ => emptyDoc
  enumerate := List.dedup

/-- Counterexample to C5: a per-item fetch failure inside the credits
stage (every `get_related_set` call fails) escapes `main` as a
`KeyError` — not the startup `ValueError` — and crashes the process
loop on its first cycle. -/
theorem claim_C5_cex :
    (main envCex emptyFiles).escaped = some PyErr.keyError ∧
    (runCycles envCex 10 emptyFiles).2.2 = true := by decide

/-- C5 as amended: `ValueError` (missing credential, Discovery's
max-pages rejection) is always caught inside `main` and never reaches
the process level; and when every credits fetch returns a document with
an `"id"` field and every record of the two detail stores has an `"id"`
field, no exception escapes `main` at all.  (Without those hypotheses a
`KeyError` from the credits logging line or from the stores' id
comprehension does escape, as the counterexample shows.) -/
theorem claim_C5_amended :
    (∀ (env : Env) (st : FileState),
       (main env st).escaped ≠ some PyErr.valueError) ∧
    (∀ (env : Env) (st : FileState),
       (∀ i : Int, ((env.get_related_set i).id?).isSome) →
       (∀ d ∈ st.credits_file.getD [], (Doc.id? d).isSome) →
       (∀ d ∈ st.movies_file.getD [], (Doc.id? d).isSome) →
       (main env st).escaped = none) := by
  constructor
  · intro env st
    simp only [main]
    split
    · simp
    · split
      · split_ifs with h
        · simp
        · simpa using h
      · split
        · split_ifs with h
          · simp
          · simpa using h
        · split
          · split_ifs with h
            · simp
            · simpa using h
          · simp
  · intro env st hrel hcred hmov
    obtain ⟨lc, hlc⟩ := idsOf_ok_of_wf hcred
    obtain ⟨lm, hlm⟩ := idsOf_ok_of_wf hmov
    rcases htok : env.token with _ | t
    · simp [main, htok]
    · simp only [main, htok]
      rcases hd : (save_movies_ids env st.movies_ids_file).outcome with e | cp
      · have he : e = .valueError := save_movies_ids_error hd
        subst he
        simp [hd]
      · simp only [hd]
        have hcr := @save_credits_data_eq_ok env (env.enumerate cp.data)
          st.credits_file lc hlc
        obtain ⟨t0, ht0⟩ := creditsLoop_ok_of_all_some env lc
          (env.enumerate cp.data) (fun i _ _ => hrel i) []
          (st.credits_file.getD [])
        rw [← hcr] at ht0
        simp only [ht0]
        have hmv := @save_movies_eq_ok env (env.enumerate cp.data)
          st.movies_file lm hlm
        simp [hmv]

/-- Counterexample to C6: with an empty credits store and the single
candidate id 8 whose `get_related_set` fetch fails (empty document), the
stage does invoke the fetch, but then raises `KeyError` instead of
appending the empty document, continuing, and persisting: its outcome is
an exception, not a persisted collection. -/
theorem claim_C6_cex :
    (save_credits_data envCex [8] none).fetched = [8] ∧
    (save_credits_data envCex [8] none).outcome = .error .keyError := by
  decide

/-- C6 as amended: for every candidate id not already present the stage
invokes `get_related_set`; when every such fetch returns a document
carrying an `"id"` field, each returned document is appended and the
full collection is persisted once; but when some needed fetch fails
(empty document, no `"id"` field), the stage raises `KeyError` at its
logging line and persists nothing. -/
theorem claim_C6_amended :
    (∀ (env : Env) (ids : List Int) (file : Option (List Doc))
       (already : List Int),
       idsOf (file.getD []) = .ok already →
       (∀ i ∈ ids, i ∉ already → ((env.get_related_set i).id?).isSome) →
       (save_credits_data env ids file).outcome =
         .ok (file.getD [] ++
           ((save_credits_data env ids file).fetched).map env.get_related_set)) ∧
    (∀ (env : Env) (ids : List Int) (file : Option (List Doc))
       (already : List Int) (i : Int),
       idsOf (file.getD []) = .ok already →
       i ∈ ids → i ∉ already → (env.get_related_set i).id? = none →
       (save_credits_data env ids file).outcome = .error .keyError) := by
  constructor
  · intro env ids file already hids hsome
    rw [save_credits_data_eq_ok hids]
    obtain ⟨t0, ht0⟩ := creditsLoop_ok_of_all_some env already ids hsome [] []
    obtain ⟨hf, ho⟩ := creditsLoop_shift env already ids [] (file.getD [])
    rw [ho, ht0, hf]
    simp [creditsLoop_ok_store env already ids ht0]
  · intro env ids file already i hids hi hnot hnone
    rw [save_credits_data_eq_ok hids]
    rcases ho : (creditsLoop env already ids [] (file.getD [])).outcome with e | t
    · rw [creditsLoop_error env already ids [] _ ho]
    · have hs := creditsLoop_ok_all_some env already ids [] _ ho i hi hnot
      rw [hnone] at hs
      simp at hs

/-- Witness for the amended C6 at concrete inputs: a succeeding credits
run persists store-plus-fetches, and a failing fetch for candidate 7
raises `KeyError`. -/
theorem claim_C6_witness :
    (save_credits_data envW [7] none).outcome =
      .ok ([] ++
        ((save_credits_data envW [7] none).fetched).map envW.get_related_set) ∧
    (save_credits_data envCex [7] none).outcome = .error .keyError :=
  ⟨claim_C6_amended.1 envW [7] none [] rfl (fun i _ _ => rfl),
   claim_C6_amended.2 envCex [7] none [] 7 rfl (by decide) (by decide) rfl⟩

/-- Witness for the amended C5 at concrete inputs: `main` never lets the
caught `ValueError` escape, and under the benign environment with empty
files no exception escapes at all. -/
theorem claim_C5_witness :
    (main envW emptyFiles).escaped ≠ some PyErr.valueError ∧
    (main envW emptyFiles).escaped = none :=
  ⟨claim_C5_amended.1 envW emptyFiles,
   claim_C5_amended.2 envW emptyFiles (fun i => rfl)
     (fun d hd => by cases hd) (fun d hd => by cases hd)⟩

/-- One unfolding of the process loop. -/
theorem runCycles_succ (env : Env) (n : Nat) (st : FileState) :
    runCycles env (n + 1) st =
      match (main env st).escaped with
      | some _ => ((main env st).state, [main env st], true)
      | none =>
        ((runCycles env n (main env st).state).1,
         main env st :: (runCycles env n (main env st).state).2.1,
         (runCycles env n (main env st).state).2.2) := rfl

/-- The environment of the C8 witness: the credential is absent. -/
def envNoTok : Env := { envW with token := none }

/-- C8: When credential acquisition fails at the start of a cycle, that
cycle performs no stage work (no page fetched, no id fetched, file state
untouched), the `ValueError` is caught and reported rather than crashing
the process, and the outer repeat loop runs all its remaining cycles. -/
theorem claim_C8 (env : Env) (st : FileState) (n : Nat)
    (h : env.token = none) :
    main env st =
      { state := st, escaped := none, caught := true
        pagesFetched := [], creditsFetched := [], detailsFetched := [] } ∧
    runCycles env (n + 1) st =
      (st,
       List.replicate (n + 1)
         { state := st, escaped := none, caught := true
           pagesFetched := [], creditsFetched := [], detailsFetched := [] },
       false) := by
  have hmain : main env st =
      { state := st, escaped := none, caught := true
        pagesFetched := [], creditsFetched := [], detailsFetched := [] } := by
    rw [main, h]
  refine ⟨hmain, ?_⟩
  induction n with
  | zero => simp [runCycles, hmain]
  | succ k ih =>
    rw [runCycles_succ, hmain]
    simp only [ih]
    rfl

/-- Witness for C8 at a concrete input: a ten-cycle process with the
credential missing completes all ten cycles without touching the files. -/
theorem claim_C8_witness :
    main envNoTok emptyFiles =
      { state := emptyFiles, escaped := none, caught := true
        pagesFetched := [], creditsFetched := [], detailsFetched := [] } ∧
    runCycles envNoTok 10 emptyFiles =
      (emptyFiles,
       List.replicate 10
         { state := emptyFiles, escaped := none, caught := true
           pagesFetched := [], creditsFetched := [], detailsFetched := [] },
       false) :=
  claim_C8 envNoTok emptyFiles 9 rfl

/-- C7: The Dedup Ledger is a pure function of the checkpoint data:
applied to any enumeration of its own output it yields the same set as
applied once, and applied to `[7, 8, 7]` it yields exactly `{7, 8}`. -/
theorem claim_C7 :
    (∀ data e : List Int, e.toFinset = dedupLedger data →
       dedupLedger e = dedupLedger data) ∧
    dedupLedger [7, 8, 7] = ({7, 8} : Finset Int) :=
  ⟨fun _ _ h => h, by decide⟩

/-- Witness for C7 at a concrete input: `[8, 7]` enumerates
`set([7, 8, 7])`, and deduplicating it again yields the same set. -/
theorem claim_C7_witness : dedupLedger [8, 7] = dedupLedger [7, 8, 7] :=
  claim_C7.1 [7, 8, 7] [8, 7] (by decide)

/-- C9: After any successful Discovery invocation (loaded
`page < max_pages`), the persisted checkpoint keeps the loaded
`pages_per_run` and `max_pages`, and the loaded `data` sequence is an
initial segment of the persisted one: Discovery only appends ids. -/
theorem claim_C9 (env : Env) (file : Option Checkpoint)
    (h : (file.getD defaultCheckpoint).page <
      (file.getD defaultCheckpoint).max_pages) :
    ∃ cp, (save_movies_ids env file).outcome = .ok cp ∧
      cp.pages_per_run = (file.getD defaultCheckpoint).pages_per_run ∧
      cp.max_pages = (file.getD defaultCheckpoint).max_pages ∧
      ∃ t, cp.data = (file.getD defaultCheckpoint).data ++ t := by
  rw [save_movies_ids, if_neg (not_le.2 h)]
  obtain ⟨t, ht⟩ := foldl_append_extends env.list_page
    (intRange (file.getD defaultCheckpoint).page
      ((file.getD defaultCheckpoint).page +
        (file.getD defaultCheckpoint).pages_per_run))
    (file.getD defaultCheckpoint).data
  exact ⟨_, rfl, rfl, rfl, t, ht⟩

/-- Witness for C9 at a concrete input: a run from a checkpoint holding
ids `[7, 8]` at `page = 3`. -/
theorem claim_C9_witness :
    ∃ cp, (save_movies_ids envW (some ⟨3, 10, 500, [7, 8]⟩)).outcome = .ok cp ∧
      cp.pages_per_run = (10 : Int) ∧ cp.max_pages = (500 : Int) ∧
      ∃ t, cp.data = [7, 8] ++ t :=
  claim_C9 envW (some ⟨3, 10, 500, [7, 8]⟩) (by decide)

/-- C10: From the checkpoint `page = 499`, `pages_per_run = 10`,
`max_pages = 500` (so `page < max_pages` but
`page + pages_per_run > max_pages`), Discovery runs, fetches pages 499
through 508 — pages numbered `max_pages` and beyond included — and
persists a cursor of 509, past the ceiling: `max_pages` constrains only
the starting page of a run. -/
theorem claim_C10 (env : Env) :
    (save_movies_ids env (some ⟨499, 10, 500, []⟩)).pagesFetched =
      [499, 500, 501, 502, 503, 504, 505, 506, 507, 508] ∧
    (500 : Int) ∈ (save_movies_ids env (some ⟨499, 10, 500, []⟩)).pagesFetched ∧
    ∃ cp, (save_movies_ids env (some ⟨499, 10, 500, []⟩)).outcome = .ok cp ∧
      cp.page = 509 ∧ cp.page > 500 := by
  have h1 : (save_movies_ids env (some ⟨499, 10, 500, []⟩)).pagesFetched =
      [499, 500, 501, 502, 503, 504, 505, 506, 507, 508] := rfl
  refine ⟨h1, ?_, ?_⟩
  · rw [h1]; decide
  · refine ⟨_, rfl, rfl, ?_⟩
    show (509 : Int) > 500
    decide

end RetreiveMoviesData
